import Mathlib

/-!
Shallow embedding of `find_affected.py`: a script that tracks, in a SQLite
table, which Ubuntu packages are affected by a Unicode-decoding bug when
installed or removed under a non-UTF-8 locale, and that drives install and
removal probes inside schroot sessions.

The SQLite table `package_affected` is modelled as a `List Row`, where the
`install_affected` and `remove_affected` columns hold raw SQL integers
(`Option Int`, `none` for NULL) exactly as stored by the Python sqlite3
binding (True maps to 1, False to 0, None to NULL).  Durations (Python
floats) are modelled as rationals.  Python regular-expression search is
modelled by a regular-expression type with Brzozowski-derivative matching
and substring-search semantics.  Subprocess interactions are modelled by
oracles describing the outcome of each external command.
-/

namespace FindAffected

/-- Lexicographic strict comparison of code-point sequences; this is the
byte order SQLite uses for TEXT columns with BINARY collation. -/
def lexLt : List Nat → List Nat → Bool
  | _, [] => false
  | [], _ :: _ => true
  | a :: as, b :: bs => a < b || (a == b && lexLt as bs)

/-- Lexicographic non-strict comparison of code-point sequences. -/
def lexLe : List Nat → List Nat → Bool
  | [], _ => true
  | _ :: _, [] => false
  | a :: as, b :: bs => a < b || (a == b && lexLe as bs)

/-- Code points of a string, the sort key SQLite orders TEXT by. -/
def charCodes (s : String) : List Nat := s.data.map Char.toNat

/-- Regular expressions as used by the script via `re.compile`. -/
inductive Regex
  | emptyset
  | epsilon
  | char (c : Char)
  | anychar
  | concat (r₁ r₂ : Regex)
  | alt (r₁ r₂ : Regex)
  | star (r : Regex)
  deriving Repr, DecidableEq

/-- Whether a regular expression accepts the empty string. -/
def Regex.nullable : Regex → Bool
  | .emptyset => false
  | .epsilon => true
  | .char _ => false
  | .anychar => false
  | .concat r₁ r₂ => r₁.nullable && r₂.nullable
  | .alt r₁ r₂ => r₁.nullable || r₂.nullable
  | .star _ => true

/-- Brzozowski derivative of a regular expression by a character. -/
def Regex.deriv : Regex → Char → Regex
  | .emptyset, _ => .emptyset
  | .epsilon, _ => .emptyset
  | .char c, a => if a == c then .epsilon else .emptyset
  | .anychar, _ => .epsilon
  | .concat r₁ r₂, a =>
      if r₁.nullable then .alt (.concat (r₁.deriv a) r₂) (r₂.deriv a)
      else .concat (r₁.deriv a) r₂
  | .alt r₁ r₂, a => .alt (r₁.deriv a) (r₂.deriv a)
  | .star r, a => .concat (r.deriv a) (.star r)

/-- Whole-word match of a regular expression against a character list. -/
def Regex.rmatch : Regex → List Char → Bool
  | r, [] => r.nullable
  | r, c :: s => (r.deriv c).rmatch s

/-- Python `re.search` semantics: the pattern matches some substring of the
subject, i.e. some prefix of some suffix, not necessarily the whole string. -/
def Regex.search (r : Regex) (s : String) : Bool :=
  s.data.tails.any fun t => t.inits.any fun p => r.rmatch p

/-- Python `re.fullmatch` semantics: the pattern matches the whole string. -/
def Regex.fullmatch (r : Regex) (s : String) : Bool :=
  r.rmatch s.data

/-- The regex `.*`, the default for the --only and --section options. -/
def Regex.dotStar : Regex := .star .anychar

/-- A raw row of the `package_affected` table.  The affected columns are
INTEGER (NULL allowed), durations are REAL, version is TEXT. -/
structure Row where
  package : String
  source : String
  «section» : String
  install_affected : Option Int
  install_duration : Option ℚ
  install_version : Option String
  remove_affected : Option Int
  remove_duration : Option ℚ
  deriving Repr, DecidableEq

/-- A fresh row as inserted by `add_package`: result columns all NULL. -/
def Row.fresh (package source sect : String) : Row :=
  ⟨package, source, sect, none, none, none, none, none⟩

/-- The `Package` dataclass: a package row with the affected columns
coerced to booleans. -/
structure Package where
  name : String
  source : String
  «section» : String
  install_affected : Option Bool
  install_duration : Option ℚ
  install_version : Option String
  remove_affected : Option Bool
  remove_duration : Option ℚ
  deriving Repr, DecidableEq

/-- `Package.from_sql`: convert a database row into a Package object;
`bool(x)` on a SQL integer is true exactly for nonzero values, and NULL
stays `None`. -/
def Package.from_sql (row : Row) : Package :=
  { name := row.package
    source := row.source
    «section» := row.«section»
    install_affected := row.install_affected.map fun v => v != 0
    install_duration := row.install_duration
    install_version := row.install_version
    remove_affected := row.remove_affected.map fun v => v != 0
    remove_duration := row.remove_duration }

/-- `Package.needs_proccessing`: the package still needs to be analyzed. -/
def Package.needs_proccessing (p : Package) : Bool :=
  p.install_duration.isNone
    || (p.install_affected == some true && p.remove_duration.isNone)

/-- `Package.needs_retry`: the analysis failed inconclusively and was quick
enough to retry. -/
def Package.needs_retry (p : Package) (retry_limit : ℚ) : Bool :=
  (p.install_affected.isNone
      && (match p.install_duration with
          | some d => decide (d ≤ retry_limit)
          | none => false))
    || (p.remove_affected.isNone
      && (match p.remove_duration with
          | some d => decide (d ≤ retry_limit)
          | none => false))

namespace Package2Affection

/-- SQL boolean binding: Python True is stored as 1, False as 0. -/
def boolToSql (b : Bool) : Int := if b then 1 else 0

/-- `__getitem__`: select `install_affected` of the row with the given
package name; raise KeyError when no row matches, return NULL as None and
any integer coerced through `bool`. -/
def getitem (db : List Row) (key : String) : Except String (Option Bool) :=
  match db.find? fun r => r.package == key with
  | none => .error key
  | some r => .ok (r.install_affected.map fun v => v != 0)

/-- `__len__`: number of rows in the table. -/
def size (db : List Row) : Nat := db.length

/-- `is_empty`: whether the table has no row at all. -/
def is_empty (db : List Row) : Bool := db.isEmpty

/-- `add_package`: INSERT a fresh row; the PRIMARY KEY constraint on
`package` makes the insert fail (sqlite3.IntegrityError) when a row with
that package name already exists, leaving the table unchanged. -/
def add_package (db : List Row) (package source sect : String) :
    Except String (List Row) :=
  if db.any fun r => r.package == package then
    .error "UNIQUE constraint failed: package_affected.package"
  else
    .ok (db ++ [Row.fresh package source sect])

/-- INSERT ... ON CONFLICT(package) DO NOTHING, as used by
`add_from_apt_cache`: a duplicate package name leaves the table unchanged. -/
def insert_or_ignore (db : List Row) (package source sect : String) :
    List Row :=
  if db.any fun r => r.package == package then db
  else db ++ [Row.fresh package source sect]

/-- An origin of an APT package version. -/
structure AptOrigin where
  origin : String
  component : String
  deriving Repr, DecidableEq

/-- A version of an APT package. -/
structure AptVersion where
  source_name : String
  origins : List AptOrigin
  deriving Repr, DecidableEq

/-- An APT cache entry. -/
structure AptPackage where
  name : String
  architecture : String
  versions : List AptVersion
  deriving Repr, DecidableEq

/-- The version loop of `add_from_apt_cache`: find the first version that
carries an Ubuntu origin, together with that first Ubuntu origin; the
`for ... else continue` skips versions without one, and `break` stops at
the first hit. -/
def first_ubuntu : List AptVersion → Option (AptVersion × AptOrigin)
  | [] => none
  | v :: rest =>
      match v.origins.find? fun o => o.origin == "Ubuntu" with
      | some o => some (v, o)
      | none => first_ubuntu rest

/-- One iteration of the cache loop of `add_from_apt_cache`: skip packages
of another architecture and packages with no Ubuntu origin; insert the
rest, ignoring name conflicts, and count the insert attempt. -/
def apt_step (architecture : String) (acc : List Row × Nat)
    (package : AptPackage) : List Row × Nat :=
  if package.architecture != architecture then acc
  else
    match first_ubuntu package.versions with
    | none => acc
    | some (version, origin) =>
        (insert_or_ignore acc.1 package.name version.source_name
          origin.component,
         acc.2 + 1)

/-- `add_from_apt_cache`: insert every cache package of the requested
architecture that has an Ubuntu origin, ignoring conflicts on the package
name; returns the new table and the counter the function reports. -/
def add_from_apt_cache (db : List Row) (architecture : String)
    (cache : List AptPackage) : List Row × Nat :=
  cache.foldl (apt_step architecture) (db, 0)

/-- Row order of `SELECT * FROM package_affected ORDER BY section ASC,
package ASC`. -/
def rowLe (a b : Row) : Bool :=
  lexLt (charCodes a.«section») (charCodes b.«section»)
    || (charCodes a.«section» == charCodes b.«section»
      && lexLe (charCodes a.package) (charCodes b.package))

/-- The ORDER BY relation as a proposition. -/
def rowle (a b : Row) : Prop := rowLe a b = true

instance : DecidableRel rowle := fun a b => instDecidableEqBool (rowLe a b) true

/-- The rows as the ORDER BY clause of `iter_unprocessed` returns them. -/
def sortedRows (db : List Row) : List Row := db.insertionSort rowle

/-- Name order of `SELECT package FROM package_affected ORDER BY package
ASC`, used by `__iter__`. -/
def namele (a b : String) : Prop := lexLe (charCodes a) (charCodes b) = true

instance : DecidableRel namele :=
  fun a b => instDecidableEqBool (lexLe (charCodes a) (charCodes b)) true

/-- `__iter__`: all package names, in ascending name order. -/
def iterKeys (db : List Row) : List String :=
  (db.map Row.package).insertionSort namele

/-- The selection predicate of `iter_unprocessed`. -/
def unprocessedFilter (package_re section_re : Regex) (retry : ℚ)
    (row : Row) : Bool :=
  let package := Package.from_sql row
  (package.needs_proccessing || package.needs_retry retry)
    && package_re.search package.name
    && section_re.search package.«section»

/-- `iter_unprocessed`: yield, in section-then-package order, the name of
every row that still needs processing (or retrying) and whose name and
section match the given regular expressions. -/
def iter_unprocessed (db : List Row) (package_re section_re : Regex)
    (retry : ℚ) : List String :=
  ((sortedRows db).filter (unprocessedFilter package_re section_re retry)).map
    Row.package

/-- `set_install`: UPDATE the three install result columns of every row
whose package name matches. -/
def set_install (db : List Row) (package : String) (affected : Option Bool)
    (duration : ℚ) (version : Option String) : List Row :=
  db.map fun r =>
    if r.package == package then
      { r with
        install_affected := affected.map boolToSql
        install_duration := some duration
        install_version := version }
    else r

/-- `set_remove`: UPDATE the two remove result columns of every row whose
package name matches. -/
def set_remove (db : List Row) (package : String) (affected : Option Bool)
    (duration : ℚ) : List Row :=
  db.map fun r =>
    if r.package == package then
      { r with
        remove_affected := affected.map boolToSql
        remove_duration := some duration }
    else r

end Package2Affection

namespace SchrootSession

/-- An ASCII apostrophe, kept out of string literals. -/
def apos : String := String.singleton (Char.ofNat 39)

/-- The byte string searched for in apt-get output:
UnicodeDecodeError: (apostrophe)utf-8(apostrophe) codec can(apostrophe)t
decode byte. -/
def unicodeMarker : String :=
  "UnicodeDecodeError: " ++ apos ++ "utf-8" ++ apos ++ " codec can" ++ apos
    ++ "t decode byte"

/-- Whether `needle` occurs at the start of `hay`. -/
def matchesAt : List Char → List Char → Bool
  | [], _ => true
  | _ :: _, [] => false
  | a :: as, b :: bs => a == b && matchesAt as bs

/-- Python `in` on byte strings: `needle` occurs contiguously in `hay`. -/
def containsSub (needle hay : List Char) : Bool :=
  hay.tails.any fun t => matchesAt needle t

/-- Outcome of the `subprocess.run` call of a probe: either
`TimeoutExpired` was raised, or the process completed with an exit status
and captured standard output. -/
inductive ProcResult
  | timedOut
  | completed (returncode : Int) (stdout : String)
  deriving Repr, DecidableEq

/-- The apt-get command line built by `install`: the locale is
`fr_FR.` followed by the encoding parameter, defaulting to ISO-8859-1. -/
def install_cmd (package : String) (encoding : String) : List String :=
  ["env", "LC_ALL=fr_FR." ++ encoding, "DEBIAN_FRONTEND=noninteractive",
   "apt-get", "install", "--reinstall", "-y", "--no-install-recommends",
   package]

/-- The apt-get command line built by `remove`; its locale is always
`fr_FR.ISO-8859-1`. -/
def remove_cmd (package : String) : List String :=
  ["env", "LC_ALL=fr_FR.ISO-8859-1", "DEBIAN_FRONTEND=noninteractive",
   "apt-get", "remove", "-y", package]

/-- The result classification shared by `install` and `remove`: None on
timeout; True whenever the Unicode marker is in stdout, regardless of the
exit status; None on a nonzero exit status without the marker; False on a
clean exit without the marker. -/
def classify (result : ProcResult) : Option Bool :=
  match result with
  | .timedOut => none
  | .completed returncode stdout =>
      if containsSub unicodeMarker.data stdout.data then some true
      else if returncode != 0 then none
      else some false

/-- `SchrootSession.install`: run the install command and classify its
outcome. -/
def install (result : ProcResult) : Option Bool := classify result

/-- `SchrootSession.remove`: run the remove command and classify its
outcome. -/
def remove (result : ProcResult) : Option Bool := classify result

end SchrootSession

/-- Oracle describing what the external world answers during
`process_package`: the outcome and duration of the two install probes, the
installed version `dpkg -s` reports, and the outcome and duration of the
removal probe. -/
structure ProbeOracle where
  iso_result : SchrootSession.ProcResult
  iso_duration : ℚ
  utf8_result : SchrootSession.ProcResult
  utf8_duration : ℚ
  version : String
  remove_result : SchrootSession.ProcResult
  remove_duration : ℚ
  deriving Repr, DecidableEq

/-- Externally visible actions of `process_package`, in order. -/
inductive Event
  | sessionBegin
  | sessionEnd
  | installProbe (package : String) (locale : String) (result : Option Bool)
  | getVersion (package : String)
  | removeProbe (package : String) (result : Option Bool)
  deriving Repr, DecidableEq

namespace Package2Affection

/-- `process_package`: probe the package in a fresh schroot session with
the ISO-8859-1 locale; on an inconclusive or clean result record it and
stop; only on an affected result open a second session, retry with UTF-8,
record the install as affected either way, and run the removal probe only
when the UTF-8 install did not fail. Returns the updated table and the
trace of external actions. -/
def process_package (db : List Row) (package : String) (o : ProbeOracle) :
    List Row × List Event :=
  let install_affected := SchrootSession.install o.iso_result
  let trace₁ := [Event.sessionBegin,
    Event.installProbe package "fr_FR.ISO-8859-1" install_affected]
  match install_affected with
  | none =>
      (set_install db package none o.iso_duration none,
       trace₁ ++ [Event.sessionEnd])
  | some false =>
      (set_install db package (some false) o.iso_duration (some o.version),
       trace₁ ++ [Event.getVersion package, Event.sessionEnd])
  | some true =>
      let utf8_affected := SchrootSession.install o.utf8_result
      let trace₂ := trace₁ ++ [Event.sessionEnd, Event.sessionBegin,
        Event.installProbe package "fr_FR.utf-8" utf8_affected]
      match utf8_affected with
      | none =>
          (set_install db package (some true) o.utf8_duration none,
           trace₂ ++ [Event.sessionEnd])
      | some _ =>
          let remove_affected := SchrootSession.remove o.remove_result
          let db₁ := set_install db package (some true) o.utf8_duration
            (some o.version)
          let db₂ := set_remove db₁ package remove_affected o.remove_duration
          (db₂,
           trace₂ ++ [Event.getVersion package,
             Event.removeProbe package remove_affected, Event.sessionEnd])

end Package2Affection

/-! ### Persistence model

A sqlite3 connection with `autocommit = False` keeps uncommitted changes
private until `commit`; `close` discards what was not committed.  The
database file either does not exist, exists with size zero, or holds a
saved table.  `Package2Affection.__init__` creates the schema exactly when
there is no usable file content. -/

/-- State of the backing database file. -/
inductive DbFile
  | noFile
  | emptyFile
  | saved (rows : List Row)
  deriving Repr, DecidableEq

/-- An open sqlite3 connection: rows already committed to the file and the
rows as the current transaction sees them. -/
structure Connection where
  committed : List Row
  pending : List Row
  deriving Repr, DecidableEq

namespace Package2Affection

/-- `__init__` on a database file (or None): connect, and create the
tables exactly when no file is given, the file does not exist, or it is
empty.  Returns the connection and whether `_create_tables` ran. -/
def openDb (file : DbFile) : Connection × Bool :=
  match file with
  | .noFile => (⟨[], []⟩, true)
  | .emptyFile => (⟨[], []⟩, true)
  | .saved rows => (⟨rows, rows⟩, false)

/-- Closing the connection: only committed data survives in the file. -/
def closeDb (c : Connection) : DbFile := .saved c.committed

/-- One database mutation of the driver. -/
inductive Op
  | addPackage (package source sect : String)
  | setInstall (package : String) (affected : Option Bool) (duration : ℚ)
      (version : Option String)
  | setRemove (package : String) (affected : Option Bool) (duration : ℚ)
  deriving Repr, DecidableEq

/-- Apply one mutation to the connection; each method executes its
statement and then commits.  A failing INSERT raises before any commit. -/
def applyOp (c : Connection) (op : Op) : Except String Connection :=
  match op with
  | .addPackage package source sect =>
      match add_package c.pending package source sect with
      | .error e => .error e
      | .ok rows => .ok ⟨rows, rows⟩
  | .setInstall package affected duration version =>
      let rows := set_install c.pending package affected duration version
      .ok ⟨rows, rows⟩
  | .setRemove package affected duration =>
      let rows := set_remove c.pending package affected duration
      .ok ⟨rows, rows⟩

/-- Apply a sequence of mutations, stopping at the first error. -/
def applyOps (c : Connection) : List Op → Except String Connection
  | [] => .ok c
  | op :: rest =>
      match applyOp c op with
      | .error e => .error e
      | .ok c₁ => applyOps c₁ rest

end Package2Affection

/-! ### Concrete data used to instantiate the theorems -/

namespace Ex

/-- A package whose inconclusive install took exactly the retry limit. -/
def pkgStuck : Package := ⟨"pkg", "src", "main", none, some 5, none, none, none⟩

/-- A row with a conclusive unaffected install but an inconclusive removal
measurement. -/
def rowA : Row := ⟨"alpha", "src", "main", some 0, some 1, some "1.0", none, some 1⟩

/-- A row marked install-affected with a recorded removal but no recorded
install duration. -/
def rowB : Row := ⟨"beta", "src", "main", some 1, none, none, some 1, some 1⟩

/-- A fully processed unaffected row. -/
def rowDone : Row := ⟨"alpha", "src", "main", some 0, some 1, some "1.0", none, none⟩

/-- An unprocessed row as `add_package` inserts it. -/
def rowFresh : Row := Row.fresh "cloud-init" "cloud-init" "main"

/-- An oracle for a package whose ISO-8859-1 install trips the bug and
whose UTF-8 install and removal both complete cleanly. -/
def oracleAffected : ProbeOracle :=
  { iso_result := .completed 100 ("Traceback " ++ SchrootSession.unicodeMarker ++ " 0xe9")
    iso_duration := 2
    utf8_result := .completed 0 "Setting up"
    utf8_duration := 3
    version := "1.0-2"
    remove_result := .completed 0 "Removing"
    remove_duration := 4 }

/-- An APT cache with one Ubuntu amd64 package. -/
def cacheEx : List Package2Affection.AptPackage :=
  [{ name := "cloud-init"
     architecture := "amd64"
     versions := [{ source_name := "cloud-init"
                    origins := [{ origin := "bdrung", component := "main" },
                                { origin := "Ubuntu", component := "main" }] }] }]

/-- A short driver history: one insert, then both result updates. -/
def opsEx : List Package2Affection.Op :=
  [.addPackage "dash" "dash" "main",
   .setInstall "dash" (some false) 1 (some "0.5.12"),
   .setRemove "dash" (some false) 2]

/-- The table `opsEx` produces from an empty database. -/
def dbDash : List Row :=
  [⟨"dash", "dash", "main", some 0, some 1, some "0.5.12", some 0, some 2⟩]

/-- The connection state after running `opsEx` on an empty database. -/
def connEx : Connection := ⟨dbDash, dbDash⟩

end Ex

/-! ### Order lemmas for the ORDER BY relation -/

theorem lexLe_refl (a : List Nat) : lexLe a a = true := by
  induction a with
  | nil => rfl
  | cons x as ih => simp [lexLe, ih]

theorem lexLe_total (a b : List Nat) : lexLe a b = true ∨ lexLe b a = true := by
  induction a generalizing b with
  | nil => left; simp [lexLe]
  | cons x as ih =>
    cases b with
    | nil => right; simp [lexLe]
    | cons y bs =>
      rcases Nat.lt_trichotomy x y with h | h | h
      · left; simp [lexLe, h]
      · subst h
        rcases ih bs with h₂ | h₂
        · left; simp [lexLe, h₂]
        · right; simp [lexLe, h₂]
      · right; simp [lexLe, h]

theorem lexLe_trans {a b c : List Nat} (hab : lexLe a b = true)
    (hbc : lexLe b c = true) : lexLe a c = true := by
  induction a generalizing b c with
  | nil => simp [lexLe]
  | cons x as ih =>
    cases b with
    | nil => simp [lexLe] at hab
    | cons y bs =>
      cases c with
      | nil => simp [lexLe] at hbc
      | cons z cs =>
        simp only [lexLe, Bool.or_eq_true, Bool.and_eq_true, decide_eq_true_eq,
          beq_iff_eq] at hab hbc ⊢
        rcases hab with h₁ | ⟨rfl, h₁⟩ <;> rcases hbc with h₂ | ⟨rfl, h₂⟩
        · exact Or.inl (Nat.lt_trans h₁ h₂)
        · exact Or.inl h₁
        · exact Or.inl h₂
        · exact Or.inr ⟨rfl, ih h₁ h₂⟩

theorem lexLt_trichotomy (a b : List Nat) :
    lexLt a b = true ∨ a = b ∨ lexLt b a = true := by
  induction a generalizing b with
  | nil =>
    cases b with
    | nil => right; left; rfl
    | cons y bs => left; simp [lexLt]
  | cons x as ih =>
    cases b with
    | nil => right; right; simp [lexLt]
    | cons y bs =>
      rcases Nat.lt_trichotomy x y with h | h | h
      · left; simp [lexLt, h]
      · subst h
        rcases ih bs with h₂ | h₂ | h₂
        · left; simp [lexLt, h₂]
        · right; left; rw [h₂]
        · right; right; simp [lexLt, h₂]
      · right; right; simp [lexLt, h]

theorem lexLt_trans {a b c : List Nat} (hab : lexLt a b = true)
    (hbc : lexLt b c = true) : lexLt a c = true := by
  induction a generalizing b c with
  | nil =>
    cases c with
    | nil => cases b <;> simp [lexLt] at hab hbc
    | cons z cs => simp [lexLt]
  | cons x as ih =>
    cases b with
    | nil => simp [lexLt] at hab
    | cons y bs =>
      cases c with
      | nil => simp [lexLt] at hbc
      | cons z cs =>
        simp only [lexLt, Bool.or_eq_true, Bool.and_eq_true, decide_eq_true_eq,
          beq_iff_eq] at hab hbc ⊢
        rcases hab with h₁ | ⟨rfl, h₁⟩ <;> rcases hbc with h₂ | ⟨rfl, h₂⟩
        · exact Or.inl (Nat.lt_trans h₁ h₂)
        · exact Or.inl h₁
        · exact Or.inl h₂
        · exact Or.inr ⟨rfl, ih h₁ h₂⟩

theorem rowle_total (a b : Row) : Package2Affection.rowle a b ∨ Package2Affection.rowle b a := by
  unfold Package2Affection.rowle Package2Affection.rowLe
  simp only [Bool.or_eq_true, Bool.and_eq_true, beq_iff_eq]
  rcases lexLt_trichotomy (charCodes a.«section») (charCodes b.«section») with h | h | h
  · exact Or.inl (Or.inl h)
  · rcases lexLe_total (charCodes a.package) (charCodes b.package) with h₂ | h₂
    · exact Or.inl (Or.inr ⟨h, h₂⟩)
    · exact Or.inr (Or.inr ⟨h.symm, h₂⟩)
  · exact Or.inr (Or.inl h)

theorem rowle_trans {a b c : Row} (hab : Package2Affection.rowle a b)
    (hbc : Package2Affection.rowle b c) : Package2Affection.rowle a c := by
  unfold Package2Affection.rowle Package2Affection.rowLe at hab hbc ⊢
  simp only [Bool.or_eq_true, Bool.and_eq_true, beq_iff_eq] at hab hbc ⊢
  rcases hab with h₁ | ⟨e₁, h₁⟩
  · rcases hbc with h₂ | ⟨e₂, h₂⟩
    · exact Or.inl (lexLt_trans h₁ h₂)
    · exact Or.inl (e₂ ▸ h₁)
  · rcases hbc with h₂ | ⟨e₂, h₂⟩
    · exact Or.inl (e₁ ▸ h₂)
    · exact Or.inr ⟨e₁.trans e₂, lexLe_trans h₁ h₂⟩

/-! ### Claim theorems -/

/-- C1: for every Package record, `needs_proccessing` returns True if and
only if `install_duration` is unset, or `install_affected` is True and
`remove_duration` is unset. -/
theorem C1_needs_proccessing_iff (p : Package) :
    p.needs_proccessing = true ↔
      p.install_duration = none
        ∨ (p.install_affected = some true ∧ p.remove_duration = none) := by
  simp [Package.needs_proccessing, Option.isNone_iff_eq_none]

/-- C2 counterexample: a record whose inconclusive install took exactly the
retry threshold is selected by `needs_retry`, although its duration is not
below the threshold on either leg, so the claimed strict-inequality reading
is false at this input. -/
theorem C2_cex_needs_retry_at_threshold :
    Ex.pkgStuck.needs_retry 5 = true
      ∧ ¬ ((Ex.pkgStuck.install_affected = none
            ∧ ∃ d, Ex.pkgStuck.install_duration = some d ∧ d < 5)
          ∨ (Ex.pkgStuck.remove_affected = none
            ∧ ∃ d, Ex.pkgStuck.remove_duration = some d ∧ d < 5)) := by
  refine ⟨by decide, ?_⟩
  rintro (⟨-, d, hd, hlt⟩ | ⟨-, d, hd, hlt⟩)
  · rw [show Ex.pkgStuck.install_duration = some 5 from rfl] at hd
    cases hd
    exact absurd hlt (by norm_num)
  · exact absurd hd (by simp [Ex.pkgStuck])

/-- C2 (amended: at or below the threshold): `needs_retry` returns True if
and only if, for the install leg (install_affected unset while
install_duration is set) or for the removal leg (remove_affected unset
while remove_duration is set) independently, the recorded duration of that
leg is at most the threshold. -/
theorem C2_needs_retry_iff (p : Package) (retry_limit : ℚ) :
    p.needs_retry retry_limit = true ↔
      (p.install_affected = none
        ∧ ∃ d, p.install_duration = some d ∧ d ≤ retry_limit)
      ∨ (p.remove_affected = none
        ∧ ∃ d, p.remove_duration = some d ∧ d ≤ retry_limit) := by
  cases hi : p.install_duration with
  | none =>
    cases hr : p.remove_duration with
    | none => simp [Package.needs_retry, hi, hr, Option.isNone_iff_eq_none]
    | some dr => simp [Package.needs_retry, hi, hr, Option.isNone_iff_eq_none]
  | some di =>
    cases hr : p.remove_duration with
    | none => simp [Package.needs_retry, hi, hr, Option.isNone_iff_eq_none]
    | some dr => simp [Package.needs_retry, hi, hr, Option.isNone_iff_eq_none]

/-- C4: `install` and `remove` return True exactly when the captured
stdout contains the UnicodeDecodeError marker (even on a nonzero exit
status); None exactly when the timeout expired or the exit status was
nonzero without the marker; and False exactly when the command exited 0
without the marker; and both probes classify outcomes identically. -/
theorem C4_probe_classification (result : SchrootSession.ProcResult) :
    (SchrootSession.install result = some true ↔
      ∃ rc out, result = .completed rc out
        ∧ SchrootSession.containsSub SchrootSession.unicodeMarker.data out.data = true)
    ∧ (SchrootSession.install result = none ↔
      result = .timedOut
        ∨ ∃ rc out, result = .completed rc out ∧ rc ≠ 0
          ∧ SchrootSession.containsSub SchrootSession.unicodeMarker.data out.data = false)
    ∧ (SchrootSession.install result = some false ↔
      ∃ out, result = .completed 0 out
        ∧ SchrootSession.containsSub SchrootSession.unicodeMarker.data out.data = false)
    ∧ SchrootSession.remove result = SchrootSession.install result := by
  cases result with
  | timedOut =>
    refine ⟨?_, ?_, ?_, rfl⟩ <;>
      simp [SchrootSession.install, SchrootSession.classify]
  | completed rc out =>
    by_cases hm :
        SchrootSession.containsSub SchrootSession.unicodeMarker.data out.data = true
    · refine ⟨?_, ?_, ?_, rfl⟩
      · simp [SchrootSession.install, SchrootSession.classify, hm]
        exact ⟨rc, out, ⟨rfl, rfl⟩, hm⟩
      · simp [SchrootSession.install, SchrootSession.classify, hm]
      · simp [SchrootSession.install, SchrootSession.classify, hm]
    · rw [Bool.not_eq_true] at hm
      by_cases hrc : rc = 0
      · subst hrc
        refine ⟨?_, ?_, ?_, rfl⟩ <;>
          simp [SchrootSession.install, SchrootSession.classify, hm]
      · refine ⟨?_, ?_, ?_, rfl⟩
        · simp [SchrootSession.install, SchrootSession.classify, hm]
        · simp [SchrootSession.install, SchrootSession.classify, hm, hrc]
          exact ⟨rc, out, ⟨rfl, rfl⟩, hrc, hm⟩
        · simp [SchrootSession.install, SchrootSession.classify, hm, hrc]

/-- C6: `set_install` rewrites only the three install result columns of
rows named like its argument and `set_remove` only the two remove result
columns; both keep the table length, every identifying column, the columns
of the other leg, and every differently-named row entirely unchanged. -/
theorem C6_update_frame (db : List Row) (package : String) (a : Option Bool)
    (d : ℚ) (v : Option String) (a₂ : Option Bool) (d₂ : ℚ) :
    (Package2Affection.set_install db package a d v).length = db.length
    ∧ (Package2Affection.set_remove db package a₂ d₂).length = db.length
    ∧ ∀ i : Nat,
        (match db[i]?, (Package2Affection.set_install db package a d v)[i]? with
         | some r, some s =>
             s.package = r.package ∧ s.source = r.source
               ∧ s.«section» = r.«section»
               ∧ s.remove_affected = r.remove_affected
               ∧ s.remove_duration = r.remove_duration
               ∧ (r.package ≠ package → s = r)
               ∧ (r.package = package →
                   s.install_affected = a.map Package2Affection.boolToSql
                     ∧ s.install_duration = some d ∧ s.install_version = v)
         | none, none => True
         | _, _ => False)
        ∧ (match db[i]?, (Package2Affection.set_remove db package a₂ d₂)[i]? with
         | some r, some s =>
             s.package = r.package ∧ s.source = r.source
               ∧ s.«section» = r.«section»
               ∧ s.install_affected = r.install_affected
               ∧ s.install_duration = r.install_duration
               ∧ s.install_version = r.install_version
               ∧ (r.package ≠ package → s = r)
               ∧ (r.package = package →
                   s.remove_affected = a₂.map Package2Affection.boolToSql
                     ∧ s.remove_duration = some d₂)
         | none, none => True
         | _, _ => False) := by
  refine ⟨by simp [Package2Affection.set_install],
    by simp [Package2Affection.set_remove], fun i => ⟨?_, ?_⟩⟩
  · rw [Package2Affection.set_install, List.getElem?_map]
    cases h : db[i]? with
    | none => simp
    | some r =>
      by_cases hp : r.package = package
      · simp [hp]
      · simp [hp]
  · rw [Package2Affection.set_remove, List.getElem?_map]
    cases h : db[i]? with
    | none => simp
    | some r =>
      by_cases hp : r.package = package
      · simp [hp]
      · simp [hp]

/-- C9: `__getitem__` raises KeyError exactly when no row carries the key
as package name; on a present key it returns the row's `install_affected`
with NULL kept as None, 0 coerced to False and any nonzero integer to
True. -/
theorem C9_getitem_lookup (db : List Row) (key : String) :
    ((∀ r ∈ db, r.package ≠ key) →
        Package2Affection.getitem db key = .error key)
    ∧ (∀ r ∈ db, r.package = key → (db.map Row.package).Nodup →
        Package2Affection.getitem db key =
            .ok (r.install_affected.map fun w => w != 0)
          ∧ (r.install_affected = none →
              Package2Affection.getitem db key = .ok none)
          ∧ (r.install_affected = some 0 →
              Package2Affection.getitem db key = .ok (some false))
          ∧ (∀ n : Int, r.install_affected = some n → n ≠ 0 →
              Package2Affection.getitem db key = .ok (some true))) := by
  constructor
  · intro habs
    have hnone : db.find? (fun r => r.package == key) = none := by
      rw [List.find?_eq_none]
      intro r hr
      simpa using habs r hr
    simp [Package2Affection.getitem, hnone]
  · intro r hr hkey hnd
    have hsome : ∃ r₀, db.find? (fun x => x.package == key) = some r₀ := by
      have : (db.find? fun x => x.package == key).isSome = true := by
        rw [List.find?_isSome]
        exact ⟨r, hr, by simp [hkey]⟩
      exact Option.isSome_iff_exists.mp this
    obtain ⟨r₀, hfind⟩ := hsome
    have hr₀mem : r₀ ∈ db := List.mem_of_find?_eq_some hfind
    have hr₀key : r₀.package = key := by
      have := List.find?_some hfind
      simpa using this
    have : r₀ = r :=
      List.inj_on_of_nodup_map hnd hr₀mem hr (hr₀key.trans hkey.symm)
    subst this
    refine ⟨by simp [Package2Affection.getitem, hfind], ?_, ?_, ?_⟩
    · intro hnull
      simp [Package2Affection.getitem, hfind, hnull]
    · intro hzero
      simp [Package2Affection.getitem, hfind, hzero]
    · intro n hn hnz
      simp [Package2Affection.getitem, hfind, hn, hnz]

/-- A row present in the table stays present through one cache-loop step. -/
theorem apt_step_mem {arch : String} {acc : List Row × Nat}
    {p : Package2Affection.AptPackage} {r : Row} (h : r ∈ acc.1) :
    r ∈ (Package2Affection.apt_step arch acc p).1 := by
  unfold Package2Affection.apt_step
  split
  · exact h
  · split
    · exact h
    · unfold Package2Affection.insert_or_ignore
      split
      · exact h
      · exact List.mem_append_left _ h

/-- One cache-loop step keeps package names free of duplicates. -/
theorem apt_step_nodup {arch : String} {acc : List Row × Nat}
    {p : Package2Affection.AptPackage}
    (h : (acc.1.map Row.package).Nodup) :
    (((Package2Affection.apt_step arch acc p).1).map Row.package).Nodup := by
  unfold Package2Affection.apt_step
  split
  · exact h
  · split
    · exact h
    · unfold Package2Affection.insert_or_ignore
      split
      · exact h
      · rename_i version origin hany
        rw [List.map_append, List.nodup_append]
        refine ⟨h, List.nodup_singleton _, ?_⟩
        intro x hx hx₂
        simp only [List.map_cons, List.map_nil, List.mem_singleton] at hx₂
        subst hx₂
        obtain ⟨r, hrmem, hrname⟩ := List.mem_map.mp hx
        exact hany (List.any_eq_true.mpr ⟨r, hrmem, by simp [hrname, Row.fresh]⟩)

/-- Every row of the table survives the whole cache loop. -/
theorem apt_foldl_mem {arch : String} (cache : List Package2Affection.AptPackage) :
    ∀ (acc : List Row × Nat) (r : Row), r ∈ acc.1 →
      r ∈ (cache.foldl (Package2Affection.apt_step arch) acc).1 := by
  induction cache with
  | nil => intro acc r h; exact h
  | cons p rest ih =>
    intro acc r h
    exact ih _ r (apt_step_mem h)

/-- The whole cache loop keeps package names free of duplicates. -/
theorem apt_foldl_nodup {arch : String} (cache : List Package2Affection.AptPackage) :
    ∀ acc : List Row × Nat, (acc.1.map Row.package).Nodup →
      (((cache.foldl (Package2Affection.apt_step arch) acc).1).map Row.package).Nodup := by
  induction cache with
  | nil => intro acc h; exact h
  | cons p rest ih =>
    intro acc h
    exact ih _ (apt_step_nodup h)

/-- C7: the package name is a primary key: `add_package` on a present name
fails with an integrity error (so the table is not modified), while the
ON CONFLICT DO NOTHING insert of `add_from_apt_cache` leaves the whole
table unchanged on a duplicate; a successful `add_package` appends exactly
one fresh row, and both operations preserve already-present rows and the
absence of duplicate package names. -/
theorem C7_primary_key (db : List Row) (package source sect arch : String)
    (cache : List Package2Affection.AptPackage) :
    ((∃ r ∈ db, r.package = package) →
        (∃ e, Package2Affection.add_package db package source sect = .error e)
        ∧ Package2Affection.insert_or_ignore db package source sect = db)
    ∧ (∀ rows, Package2Affection.add_package db package source sect = .ok rows →
        rows = db ++ [Row.fresh package source sect]
        ∧ ((db.map Row.package).Nodup → (rows.map Row.package).Nodup))
    ∧ (∀ r ∈ db, r ∈ (Package2Affection.add_from_apt_cache db arch cache).1)
    ∧ ((db.map Row.package).Nodup →
        ((Package2Affection.add_from_apt_cache db arch cache).1.map Row.package).Nodup) := by
  refine ⟨?_, ?_, ?_, ?_⟩
  · rintro ⟨r, hr, hname⟩
    have hany : (db.any fun x => x.package == package) = true :=
      List.any_eq_true.mpr ⟨r, hr, by simp [hname]⟩
    exact ⟨⟨"UNIQUE constraint failed: package_affected.package",
      by simp [Package2Affection.add_package, hany]⟩,
      by simp [Package2Affection.insert_or_ignore, hany]⟩
  · intro rows hok
    rw [Package2Affection.add_package] at hok
    by_cases hany : (db.any fun x => x.package == package) = true
    · simp [hany] at hok
    · rw [if_neg hany] at hok
      cases hok
      refine ⟨rfl, fun hnd => ?_⟩
      rw [List.map_append, List.nodup_append]
      refine ⟨hnd, List.nodup_singleton _, ?_⟩
      intro x hx hx₂
      simp only [List.map_cons, List.map_nil, List.mem_singleton] at hx₂
      subst hx₂
      obtain ⟨r, hrmem, hrname⟩ := List.mem_map.mp hx
      exact hany (List.any_eq_true.mpr ⟨r, hrmem, by simp [hrname]⟩)
  · intro r hr
    exact apt_foldl_mem cache (db, 0) r hr
  · intro hnd
    exact apt_foldl_nodup cache (db, 0) hnd

/-- C3: `process_package` first probes an install under fr_FR.ISO-8859-1
in a fresh session; on None it records an unknown affectedness with no
version and stops, on False it records the clean result with the installed
version and stops; only on True does it open a second session, retry under
the UTF-8 locale, record install_affected as True whatever that retry
returns, and probe the removal only when the UTF-8 install did not fail.
The trace also shows a second session and a removal probe occur in no
other case. -/
theorem C3_process_package_flow (db : List Row) (package : String)
    (o : ProbeOracle) :
    ((Package2Affection.process_package db package o).2.take 2 =
      [Event.sessionBegin,
       Event.installProbe package "fr_FR.ISO-8859-1"
         (SchrootSession.install o.iso_result)])
    ∧ (SchrootSession.install o.iso_result = none →
        Package2Affection.process_package db package o =
          (Package2Affection.set_install db package none o.iso_duration none,
           [Event.sessionBegin,
            Event.installProbe package "fr_FR.ISO-8859-1" none,
            Event.sessionEnd]))
    ∧ (SchrootSession.install o.iso_result = some false →
        Package2Affection.process_package db package o =
          (Package2Affection.set_install db package (some false) o.iso_duration
             (some o.version),
           [Event.sessionBegin,
            Event.installProbe package "fr_FR.ISO-8859-1" (some false),
            Event.getVersion package, Event.sessionEnd]))
    ∧ (SchrootSession.install o.iso_result = some true →
        SchrootSession.install o.utf8_result = none →
        Package2Affection.process_package db package o =
          (Package2Affection.set_install db package (some true) o.utf8_duration
             none,
           [Event.sessionBegin,
            Event.installProbe package "fr_FR.ISO-8859-1" (some true),
            Event.sessionEnd, Event.sessionBegin,
            Event.installProbe package "fr_FR.utf-8" none,
            Event.sessionEnd]))
    ∧ (∀ b, SchrootSession.install o.iso_result = some true →
        SchrootSession.install o.utf8_result = some b →
        Package2Affection.process_package db package o =
          (Package2Affection.set_remove
             (Package2Affection.set_install db package (some true)
               o.utf8_duration (some o.version))
             package (SchrootSession.remove o.remove_result) o.remove_duration,
           [Event.sessionBegin,
            Event.installProbe package "fr_FR.ISO-8859-1" (some true),
            Event.sessionEnd, Event.sessionBegin,
            Event.installProbe package "fr_FR.utf-8" (some b),
            Event.getVersion package,
            Event.removeProbe package (SchrootSession.remove o.remove_result),
            Event.sessionEnd]))
    ∧ ((∃ res, Event.removeProbe package res ∈
          (Package2Affection.process_package db package o).2) ↔
        SchrootSession.install o.iso_result = some true
          ∧ SchrootSession.install o.utf8_result ≠ none)
    ∧ ((Package2Affection.process_package db package o).2.count
          Event.sessionBegin =
        if SchrootSession.install o.iso_result = some true then 2 else 1) := by
  cases h : SchrootSession.install o.iso_result with
  | none =>
    refine ⟨?_, ?_, ?_, ?_, ?_, ?_, ?_⟩ <;>
      simp [Package2Affection.process_package, h, List.count_cons]
  | some b =>
    cases b with
    | false =>
      refine ⟨?_, ?_, ?_, ?_, ?_, ?_, ?_⟩ <;>
        simp [Package2Affection.process_package, h, List.count_cons]
    | true =>
      cases h₂ : SchrootSession.install o.utf8_result with
      | none =>
        refine ⟨?_, ?_, ?_, ?_, ?_, ?_, ?_⟩ <;>
          simp [Package2Affection.process_package, h, h₂, List.count_cons]
      | some b₂ =>
        refine ⟨?_, ?_, ?_, ?_, ?_, ?_, ?_⟩ <;>
          simp [Package2Affection.process_package, h, h₂, List.count_cons]

/-- A name is yielded by `iter_unprocessed` exactly when some row of the
table carries it, still needs processing or retrying, and passes both
regular-expression searches. -/
theorem mem_iter_unprocessed {db : List Row} {pr sr : Regex} {retry : ℚ}
    {name : String} :
    name ∈ Package2Affection.iter_unprocessed db pr sr retry ↔
      ∃ r ∈ db, r.package = name
        ∧ ((Package.from_sql r).needs_proccessing = true
            ∨ (Package.from_sql r).needs_retry retry = true)
        ∧ pr.search r.package = true
        ∧ sr.search r.«section» = true := by
  simp only [Package2Affection.iter_unprocessed, List.mem_map, List.mem_filter,
    Package2Affection.sortedRows, List.mem_insertionSort,
    Package2Affection.unprocessedFilter, Bool.and_eq_true, Bool.or_eq_true]
  constructor
  · rintro ⟨r, ⟨hmem, ⟨hneed, hs₁⟩, hs₂⟩, rfl⟩
    exact ⟨r, hmem, rfl, hneed, hs₁, hs₂⟩
  · rintro ⟨r, hmem, rfl, hneed, hs₁, hs₂⟩
    exact ⟨r, ⟨hmem, ⟨hneed, hs₁⟩, hs₂⟩, rfl⟩

/-- C8: `iter_unprocessed` yields exactly the names of the rows that need
processing or retrying and whose name and section pass the substring
searches of the two regular expressions, and the yielded rows come in
ascending section order with ascending package names inside a section. -/
theorem C8_iter_unprocessed_spec (db : List Row) (pr sr : Regex)
    (retry : ℚ) :
    (∀ name, name ∈ Package2Affection.iter_unprocessed db pr sr retry ↔
        ∃ r ∈ db, r.package = name
          ∧ ((Package.from_sql r).needs_proccessing = true
              ∨ (Package.from_sql r).needs_retry retry = true)
          ∧ pr.search r.package = true
          ∧ sr.search r.«section» = true)
    ∧ ∃ rows : List Row,
        Package2Affection.iter_unprocessed db pr sr retry =
            rows.map Row.package
          ∧ (∀ r ∈ rows, r ∈ db)
          ∧ rows.Pairwise fun a b =>
              lexLt (charCodes a.«section») (charCodes b.«section») = true
                ∨ (charCodes a.«section» = charCodes b.«section»
                  ∧ lexLe (charCodes a.package) (charCodes b.package) = true) := by
  refine ⟨fun name => mem_iter_unprocessed, ?_⟩
  refine ⟨(Package2Affection.sortedRows db).filter
    (Package2Affection.unprocessedFilter pr sr retry), rfl, ?_, ?_⟩
  · intro r hr
    exact (List.mem_insertionSort _).mp (List.mem_filter.mp hr).1
  · have hsorted :
        (Package2Affection.sortedRows db).Pairwise Package2Affection.rowle :=
      @List.sorted_insertionSort Row Package2Affection.rowle _
        ⟨rowle_total⟩ ⟨fun _ _ _ => rowle_trans⟩ db
    have hfil :=
      List.Pairwise.filter (R := Package2Affection.rowle)
        (Package2Affection.unprocessedFilter pr sr retry) hsorted
    refine hfil.imp ?_
    intro a b hab
    unfold Package2Affection.rowle Package2Affection.rowLe at hab
    simpa only [Bool.or_eq_true, Bool.and_eq_true, beq_iff_eq] using hab

/-- C5 counterexample: with regexes that match everything and retry
threshold 5, a row whose conclusive unaffected install is recorded but
whose removal leg is inconclusive and quick, and a row marked
install-affected with a recorded removal but no install duration, both
satisfy the claimed conclusiveness conditions and are still yielded. -/
theorem C5_cex_conclusive_reselected :
    ((Package.from_sql Ex.rowA).install_affected = some false
      ∧ Ex.rowA.install_duration ≠ none)
    ∧ ((Package.from_sql Ex.rowB).install_affected = some true
      ∧ Ex.rowB.remove_affected ≠ none ∧ Ex.rowB.remove_duration ≠ none)
    ∧ Package2Affection.iter_unprocessed [Ex.rowA, Ex.rowB] Regex.dotStar
        Regex.dotStar 5 = ["alpha", "beta"] := by
  refine ⟨⟨?_, ?_⟩, ⟨?_, ?_, ?_⟩, ?_⟩ <;> decide

/-- C5 (amended: a record is conclusively processed when install was
unaffected with its duration recorded and no removal measurement exists,
or when install was affected and the removal verdict and both durations
are recorded): such a record is never yielded again, for every retry
threshold and every pair of regular expressions, as long as package names
are unique as the PRIMARY KEY guarantees. -/
theorem C5_conclusive_never_selected (db : List Row) (r : Row)
    (pr sr : Regex) (retry : ℚ) (hmem : r ∈ db)
    (hnd : (db.map Row.package).Nodup)
    (hconc :
      ((Package.from_sql r).install_affected = some false
        ∧ r.install_duration ≠ none ∧ r.remove_duration = none)
      ∨ ((Package.from_sql r).install_affected = some true
        ∧ r.install_duration ≠ none ∧ r.remove_affected ≠ none
        ∧ r.remove_duration ≠ none)) :
    r.package ∉ Package2Affection.iter_unprocessed db pr sr retry := by
  intro hin
  rw [mem_iter_unprocessed] at hin
  obtain ⟨r₀, hr₀, hname, hneed, -, -⟩ := hin
  have heq : r₀ = r := List.inj_on_of_nodup_map hnd hr₀ hmem hname
  subst heq
  simp only [Package.from_sql] at hconc
  rcases hconc with ⟨ha, hd, hrd⟩ | ⟨ha, hd, hra, hrd⟩
  · rcases hneed with hneed | hneed
    · simp only [Package.needs_proccessing, Package.from_sql, Bool.or_eq_true,
        Bool.and_eq_true, Option.isNone_iff_eq_none, beq_iff_eq, ha] at hneed
      rcases hneed with h | ⟨h, -⟩
      · exact hd h
      · cases h
    · simp only [Package.needs_retry, Package.from_sql, Bool.or_eq_true,
        Bool.and_eq_true, Option.isNone_iff_eq_none, ha, hrd] at hneed
      rcases hneed with ⟨h, -⟩ | ⟨-, h⟩
      · cases h
      · cases h
  · rcases hneed with hneed | hneed
    · simp only [Package.needs_proccessing, Package.from_sql, Bool.or_eq_true,
        Bool.and_eq_true, Option.isNone_iff_eq_none, beq_iff_eq, ha] at hneed
      rcases hneed with h | ⟨-, h⟩
      · exact hd h
      · exact hrd h
    · simp only [Package.needs_retry, Package.from_sql, Bool.or_eq_true,
        Bool.and_eq_true, Option.isNone_iff_eq_none, ha] at hneed
      rcases hneed with ⟨h, -⟩ | ⟨h, -⟩
      · cases h
      · exact hra (Option.map_eq_none.mp h)

/-- C5 witness: a fully processed unaffected row in a one-row table is not
selected at threshold 5 with match-all regexes. -/
theorem C5_conclusive_never_selected_witness :
    Ex.rowDone.package ∉
      Package2Affection.iter_unprocessed [Ex.rowDone] Regex.dotStar
        Regex.dotStar 5 :=
  C5_conclusive_never_selected [Ex.rowDone] Ex.rowDone Regex.dotStar
    Regex.dotStar 5 (by decide) (by decide)
    (Or.inl ⟨by decide, by decide, by decide⟩)

/-- Every mutation commits what it executed, so a connection whose
transaction view agrees with the file keeps that agreement. -/
theorem applyOps_synced (ops : List Package2Affection.Op) :
    ∀ {c c' : Connection}, c.committed = c.pending →
      Package2Affection.applyOps c ops = .ok c' →
      c'.committed = c'.pending := by
  induction ops with
  | nil =>
    intro c c' hsync hok
    rw [Package2Affection.applyOps] at hok
    cases hok
    exact hsync
  | cons op rest ih =>
    intro c c' hsync hok
    rw [Package2Affection.applyOps] at hok
    cases hop : Package2Affection.applyOp c op with
    | error e => rw [hop] at hok; cases hok
    | ok c₁ =>
      rw [hop] at hok
      refine ih ?_ hok
      cases op with
      | addPackage package source sect =>
        rw [Package2Affection.applyOp] at hop
        cases hadd : Package2Affection.add_package c.pending package source sect with
        | error e => rw [hadd] at hop; cases hop
        | ok rows => rw [hadd] at hop; cases hop; rfl
      | setInstall package affected duration version =>
        rw [Package2Affection.applyOp] at hop
        cases hop
        rfl
      | setRemove package affected duration =>
        rw [Package2Affection.applyOp] at hop
        cases hop
        rfl

/-- C10: after any successful sequence of `add_package`, `set_install`
and `set_remove` calls, closing the connection saves exactly the rows the
session observed, and a `Package2Affection` later opened on that file sees
the same rows, hence the same lookups, the same key iteration and the same
`is_empty` answer; and the constructor creates fresh tables exactly when
no file is given, the file is absent, or it is empty. -/
theorem C10_round_trip (file : DbFile) (ops : List Package2Affection.Op)
    (c : Connection)
    (h : Package2Affection.applyOps (Package2Affection.openDb file).1 ops =
      .ok c) :
    Package2Affection.closeDb c = .saved c.pending
    ∧ (Package2Affection.openDb (Package2Affection.closeDb c)).1.pending =
        c.pending
    ∧ (∀ k, Package2Affection.getitem
          (Package2Affection.openDb (Package2Affection.closeDb c)).1.pending k
        = Package2Affection.getitem c.pending k)
    ∧ Package2Affection.iterKeys
          (Package2Affection.openDb (Package2Affection.closeDb c)).1.pending
        = Package2Affection.iterKeys c.pending
    ∧ Package2Affection.is_empty
          (Package2Affection.openDb (Package2Affection.closeDb c)).1.pending
        = Package2Affection.is_empty c.pending
    ∧ ((Package2Affection.openDb file).2 = true ↔
        file = .noFile ∨ file = .emptyFile) := by
  have hstart : (Package2Affection.openDb file).1.committed =
      (Package2Affection.openDb file).1.pending := by
    cases file <;> rfl
  have hsync : c.committed = c.pending := applyOps_synced ops hstart h
  have hclose : Package2Affection.closeDb c = .saved c.pending := by
    rw [Package2Affection.closeDb, hsync]
  refine ⟨hclose, ?_, ?_, ?_, ?_, ?_⟩
  · rw [hclose]
    rfl
  · intro k
    rw [hclose]
    rfl
  · rw [hclose]
    rfl
  · rw [hclose]
    rfl
  · cases file <;> simp [Package2Affection.openDb]

/-- C10 witness: running one insert and both updates on an initially empty
database and reopening the saved file reproduces the same table. -/
theorem C10_round_trip_witness :
    (Package2Affection.openDb
        (Package2Affection.closeDb Ex.connEx)).1.pending =
      Ex.connEx.pending :=
  (C10_round_trip .emptyFile Ex.opsEx Ex.connEx rfl).2.1

end FindAffected
